import Mathlib

/-!
Verification of the resilient request-handling layer of the repository:
the tiered response cache with local fallback (server/index.js), the
per-account failed-login lockout methods (server/models/User.js), and the
fixed-window throttle described in the specification.

Timestamps are modelled as natural numbers of milliseconds (JavaScript
`Date.now()`), cache bodies as strings, and the JavaScript `Map` backing
the in-process cache as an association list with replace-on-set semantics.
-/

namespace LifeOS

/-! ## Lockout state machine (server/models/User.js) -/

/-- The lockout-relevant fields of a user document: `loginAttempts` and the
optional `lockUntil` timestamp (milliseconds). -/
structure UserState where
  loginAttempts : Nat
  lockUntil : Option Nat
  deriving Repr, DecidableEq

/-- `maxAttempts` constant from `incLoginAttempts` in User.js. -/
def maxAttempts : Nat := 5

/-- `lockTime` constant from `incLoginAttempts` in User.js:
`2 * 60 * 60 * 1000` milliseconds (two hours). -/
def lockTime : Nat := 2 * 60 * 60 * 1000

/-- `isLocked` from User.js: `!!(this.lockUntil && this.lockUntil > Date.now())`. -/
def isLocked (now : Nat) (u : UserState) : Bool :=
  match u.lockUntil with
  | some t => decide (t > now)
  | none => false

/-- The guard of the first branch of `incLoginAttempts` in User.js:
`this.lockUntil && this.lockUntil < Date.now()`. -/
def lockExpired (now : Nat) (u : UserState) : Bool :=
  match u.lockUntil with
  | some t => decide (t < now)
  | none => false

/-- `incLoginAttempts` from User.js: if the lock has (strictly) expired,
reset `loginAttempts` to 1 and unset `lockUntil`; otherwise increment
`loginAttempts`, additionally setting `lockUntil := now + lockTime` when the
incremented count reaches `maxAttempts` and the account is not currently
locked. -/
def incLoginAttempts (now : Nat) (u : UserState) : UserState :=
  if lockExpired now u then
    { loginAttempts := 1, lockUntil := none }
  else if decide (u.loginAttempts + 1 ≥ maxAttempts) && !(isLocked now u) then
    { loginAttempts := u.loginAttempts + 1, lockUntil := some (now + lockTime) }
  else
    { loginAttempts := u.loginAttempts + 1, lockUntil := u.lockUntil }

/-- `resetLoginAttempts` from User.js: set `loginAttempts := 0` and unset
`lockUntil`. -/
def resetLoginAttempts (_u : UserState) : UserState :=
  { loginAttempts := 0, lockUntil := none }

/-- A fresh account: no failed attempts, no lock. -/
def freshUser : UserState := { loginAttempts := 0, lockUntil := none }

end LifeOS

namespace LifeOS

/-! ## Tiered cache (server/index.js) -/

/-- Outcome of one call to the external distributed backend (the Redis
client): a successful reply carrying an optional stored value, or a
failure (timeout, connection error, thrown exception). -/
inductive DistResult where
  | ok : Option String → DistResult
  | err : DistResult
  deriving Repr, DecidableEq

/-- One entry of the in-process `memoryCache` Map in index.js:
`{ data, expires }` with `expires` in milliseconds. -/
structure MemEntry where
  data : String
  expires : Nat
  deriving Repr, DecidableEq

/-- `memoryCache.get(key)` on the association-list model of a JavaScript
Map: the entry stored under `key`, if any. -/
def memGet (m : List (String × MemEntry)) (k : String) : Option MemEntry :=
  match m with
  | [] => none
  | (k0, e) :: rest => if k0 = k then some e else memGet rest k

/-- `memoryCache.set(key, e)`: replace the entry under `key` if present,
otherwise append it. -/
def memSet (m : List (String × MemEntry)) (k : String) (e : MemEntry) :
    List (String × MemEntry) :=
  match m with
  | [] => [(k, e)]
  | (k0, e0) :: rest =>
    if k0 = k then (k, e) :: rest else (k0, e0) :: memSet rest k e

/-- `memoryCache.delete(key)`: remove the entry under `key`. -/
def memDelete (m : List (String × MemEntry)) (k : String) :
    List (String × MemEntry) :=
  match m with
  | [] => []
  | (k0, e0) :: rest =>
    if k0 = k then memDelete rest k else (k0, e0) :: memDelete rest k

/-- The module-level mutable state of server/index.js that the cache
middleware touches: whether `redisClient` is non-null, and the in-process
`memoryCache` Map. -/
structure SrvState where
  redisAvailable : Bool
  memoryCache : List (String × MemEntry)
  deriving Repr, DecidableEq

/-- Outcome of the cache-read half of the middleware: a cached value, or a
miss (the request falls through to the handler). -/
inductive GetOutcome where
  | hit : String → GetOutcome
  | miss : GetOutcome
  deriving Repr, DecidableEq

/-- The memory-cache check of the middleware (index.js lines 146-153):
if an entry exists and `now < entry.expires`, return its data; if it
exists but has expired, delete it and miss; otherwise miss. -/
def memoryLookup (now : Nat) (s : SrvState) (key : String) :
    GetOutcome × SrvState :=
  match memGet s.memoryCache key with
  | some e =>
    if now < e.expires then (.hit e.data, s)
    else (.miss, { s with memoryCache := memDelete s.memoryCache key })
  | none => (.miss, s)

/-- The cache-read half of the middleware (index.js lines 134-157): try the
distributed backend first when `redisClient` is non-null — a reply with a
value is served directly (the memory cache is not consulted); a reply with
no value or a failure falls back to the memory-cache check; a failure also
fires the client error handler (lines 39-42), which nulls `redisClient`.
The third component records whether the distributed backend was attempted. -/
def cacheGet (now : Nat) (dist : DistResult) (s : SrvState) (key : String) :
    GetOutcome × SrvState × Bool :=
  if s.redisAvailable then
    match dist with
    | .ok (some v) => (.hit v, s, true)
    | .ok none =>
      let r := memoryLookup now s key
      (r.1, r.2, true)
    | .err =>
      let r := memoryLookup now { s with redisAvailable := false } key
      (r.1, r.2, true)
  else
    let r := memoryLookup now s key
    (r.1, r.2, false)

/-- The cache-write half of the middleware (index.js lines 159-180), run
when the handler sends its body: with `redisClient` non-null, try
`setex`; on failure, fall back to the memory cache with
`expires = now + duration * 1000` (and the error handler nulls the
client); with no client, write to the memory cache directly. The second
component records whether the distributed backend was attempted. -/
def cachePut (now : Nat) (dist : DistResult) (s : SrvState)
    (key body : String) (duration : Nat) : SrvState × Bool :=
  let entry : MemEntry := ⟨body, now + duration * 1000⟩
  if s.redisAvailable then
    match dist with
    | .ok _ => (s, true)
    | .err =>
      ({ redisAvailable := false,
         memoryCache := memSet s.memoryCache key entry }, true)
  else
    ({ s with memoryCache := memSet s.memoryCache key entry }, false)

/-- The caller-visible result of one request through the cache middleware:
a served response body, or a rate-limit rejection carrying a retry-after
(the latter only arises once the throttle is composed in). -/
inductive Response where
  | served : String → Response
  | rateLimited : Nat → Response
  deriving Repr, DecidableEq

/-- One request through the cache middleware alone (no throttle): on a
cache hit the cached body is served; on a miss the handler body is
computed, stored via `cachePut`, and served. -/
def handleRequest (now : Nat) (distG distP : DistResult) (s : SrvState)
    (key body : String) (duration : Nat) : Response × SrvState :=
  match cacheGet now distG s key with
  | (.hit v, s1, _) => (.served v, s1)
  | (.miss, s1, _) =>
    let r := cachePut now distP s1 key body duration
    (.served body, r.1)

/-! ## Fixed-window throttle (modelled from the spec) and the gate -/

/-- One fixed window of the throttle: `{ windowStart, count }`. -/
structure ThrottleWindow where
  windowStart : Nat
  count : Nat
  deriving Repr, DecidableEq

/-- Decision of one throttle check. -/
inductive ThrottleResult where
  | allowed : ThrottleResult
  | denied : Nat → ThrottleResult
  deriving Repr, DecidableEq

/-- Modelled from the spec: the throttle implementation (express-rate-limit
wiring) is not among the source files, only its documentation; §4.2 gives
the algorithm. Fetch or create the window for the client; if
`now - windowStart ≥ windowSize`, reset `count := 0` and
`windowStart := now`; increment `count`; if `count > limit`, return Denied
with `retryAfter = windowStart + windowSize - now`, else Allowed. -/
def allow (limit windowSize now : Nat) (w : Option ThrottleWindow) :
    ThrottleResult × ThrottleWindow :=
  let w0 := match w with
    | some w0 => w0
    | none => ⟨now, 0⟩
  let w1 := if now - w0.windowStart ≥ windowSize then ⟨now, 0⟩ else w0
  let w2 : ThrottleWindow := ⟨w1.windowStart, w1.count + 1⟩
  if w2.count > limit then
    (.denied (w2.windowStart + windowSize - now), w2)
  else
    (.allowed, w2)

/-- Modelled from the spec: the composition order of §4.4 (cache check
precedes throttle check precedes handler) — the middleware mounting order
is not among the source files, but the cache middleware of index.js serves
a hit by returning without calling `next()`, so nothing mounted after it
runs on a hit. One request through the gate; the final component records
whether the wrapped handler was invoked. -/
def gateRequest (limit windowSize now : Nat) (distG distP : DistResult)
    (s : SrvState) (w : Option ThrottleWindow) (key body : String)
    (duration : Nat) :
    Response × SrvState × Option ThrottleWindow × Bool :=
  match cacheGet now distG s key with
  | (.hit v, s1, _) => (.served v, s1, w, false)
  | (.miss, s1, _) =>
    match allow limit windowSize now w with
    | (.denied r, w1) => (.rateLimited r, s1, some w1, false)
    | (.allowed, w1) =>
      let r := cachePut now distP s1 key body duration
      (.served body, r.1, some w1, true)

/-- A sequence of reads of the same key through the gate, one per time in
`ts`: the list of responses, the final server and throttle state, and
whether the handler was ever invoked. -/
def gateReads (limit windowSize : Nat) (ts : List Nat) (s : SrvState)
    (w : Option ThrottleWindow) (key body : String) (duration : Nat) :
    List Response × SrvState × Option ThrottleWindow × Bool :=
  match ts with
  | [] => ([], s, w, false)
  | t :: rest =>
    match gateRequest limit windowSize t (.ok none) (.ok none) s w key body duration with
    | (resp, s1, w1, inv) =>
      match gateReads limit windowSize rest s1 w1 key body duration with
      | (resps, s2, w2, inv2) => (resp :: resps, s2, w2, inv || inv2)

/-- The key written by the `n`-th step of the distinct-key trace below:
a string of `n` repetitions of one character, so keys of different steps
differ (their lengths differ). -/
def keyOfNat (n : Nat) : String :=
  String.mk (List.replicate n 'a')

/-- The development-mode state at process start: no Redis client, empty
`memoryCache`. -/
def devStart : SrvState := ⟨false, []⟩

/-- The server state after caching `n` responses under `n` distinct keys
(development mode, default `duration = 300`). -/
def putN : Nat → SrvState
  | 0 => devStart
  | n + 1 => (cachePut 0 (.ok none) (putN n) (keyOfNat n) "v" 300).1

/-- The execution of C2's scenario: starting from a healthy client and
empty memory cache, the first distributed read fails at time 0. -/
def afterFirstFailure : SrvState :=
  (cacheGet 0 .err ⟨true, []⟩ "k").2.1

/-- Whether a cache read at time `t`, after the first failure, attempts the
distributed backend. -/
def distAttemptedAt (t : Nat) : Bool :=
  (cacheGet t (.ok (some "v")) afterFirstFailure "k").2.2

/-! ## Claims about the lockout state machine -/

/-- C1, as stated by the spec, is false on the code: while an account is
locked and the lock has not expired, `isLocked` does reject the attempt, but
`incLoginAttempts` increments `loginAttempts` from 5 to 6 rather than
leaving the counter unchanged (state `loginAttempts = 5`,
`lockUntil = some 1000`, at `now = 500`). -/
theorem C1_counterexample :
    isLocked 500 { loginAttempts := 5, lockUntil := some 1000 } = true ∧
    (incLoginAttempts 500 { loginAttempts := 5, lockUntil := some 1000 }).loginAttempts = 6 := by
  constructor <;> decide

/-- C1 amended: for every account locked with unexpired lock (`now < t`),
an attempt is rejected (`isLocked` is true) and recording a failure leaves
`lockUntil` unchanged but increments the failed-attempt counter by one. -/
theorem C1_locked_attempt (now t : Nat) (u : UserState)
    (hl : u.lockUntil = some t) (hn : now < t) :
    isLocked now u = true ∧
    (incLoginAttempts now u).lockUntil = some t ∧
    (incLoginAttempts now u).loginAttempts = u.loginAttempts + 1 := by
  have hlocked : isLocked now u = true := by
    simp [isLocked, hl]; omega
  have hexp : lockExpired now u = false := by
    simp [lockExpired, hl]; omega
  refine ⟨hlocked, ?_, ?_⟩ <;>
    simp [incLoginAttempts, hexp, hlocked, hl]

/-- Witness for C1_locked_attempt at `now = 500`, `t = 1000`,
`u = ⟨5, some 1000⟩`. -/
theorem C1_locked_attempt_witness :
    isLocked 500 { loginAttempts := 5, lockUntil := some 1000 } = true ∧
    (incLoginAttempts 500 { loginAttempts := 5, lockUntil := some 1000 }).lockUntil = some 1000 ∧
    (incLoginAttempts 500 { loginAttempts := 5, lockUntil := some 1000 }).loginAttempts = 5 + 1 :=
  C1_locked_attempt 500 1000 { loginAttempts := 5, lockUntil := some 1000 } rfl (by decide)

/-- C4: from a fresh account, four recorded failures (at arbitrary times)
leave the account unlocked with `loginAttempts = 4`, and the fifth failure
at time `t5` locks it with `lockUntil = t5 + 7200000` (120 minutes) and
`loginAttempts = 5`. -/
theorem C4_five_failures_lock (t1 t2 t3 t4 t5 now : Nat) :
    incLoginAttempts t4 (incLoginAttempts t3 (incLoginAttempts t2 (incLoginAttempts t1 freshUser)))
      = { loginAttempts := 4, lockUntil := none } ∧
    isLocked now { loginAttempts := 4, lockUntil := none } = false ∧
    incLoginAttempts t5 { loginAttempts := 4, lockUntil := none }
      = { loginAttempts := 5, lockUntil := some (t5 + 120 * 60 * 1000) } ∧
    isLocked t5 { loginAttempts := 5, lockUntil := some (t5 + 120 * 60 * 1000) } = true := by
  refine ⟨?_, ?_, ?_, ?_⟩
  · simp [incLoginAttempts, lockExpired, isLocked, freshUser, maxAttempts, lockTime]
  · simp [isLocked]
  · simp [incLoginAttempts, lockExpired, isLocked, maxAttempts, lockTime]
  · simp [isLocked]

/-- C5, as stated by the spec (`now >= until`), is false on the code at the
boundary `now = until`: with `loginAttempts = 5`, `lockUntil = some 100` and
`now = 100`, a recorded failure yields `loginAttempts = 6` (not 1) and sets
a fresh two-hour lock instead of clearing it. -/
theorem C5_counterexample :
    (incLoginAttempts 100 { loginAttempts := 5, lockUntil := some 100 }).loginAttempts = 6 ∧
    (incLoginAttempts 100 { loginAttempts := 5, lockUntil := some 100 }).lockUntil
      = some (100 + 7200000) := by
  constructor <;> decide

/-- C5 amended: for every locked account whose lock expiry has strictly
passed (`now > until`), the next recorded failure yields `loginAttempts = 1`
with the lock cleared, and a recorded success yields `loginAttempts = 0`
with the lock cleared (at `now = until` exactly, the code instead increments
the counter and may re-lock). -/
theorem C5_expiry_reentry (now t : Nat) (u : UserState)
    (hl : u.lockUntil = some t) (hn : t < now) :
    incLoginAttempts now u = { loginAttempts := 1, lockUntil := none } ∧
    resetLoginAttempts u = { loginAttempts := 0, lockUntil := none } := by
  have hexp : lockExpired now u = true := by
    simp [lockExpired, hl]; omega
  exact ⟨by simp [incLoginAttempts, hexp], rfl⟩

/-- Witness for C5_expiry_reentry at `now = 200`, `t = 100`,
`u = ⟨5, some 100⟩`. -/
theorem C5_expiry_reentry_witness :
    incLoginAttempts 200 { loginAttempts := 5, lockUntil := some 100 }
      = { loginAttempts := 1, lockUntil := none } ∧
    resetLoginAttempts { loginAttempts := 5, lockUntil := some 100 }
      = { loginAttempts := 0, lockUntil := none } :=
  C5_expiry_reentry 200 100 { loginAttempts := 5, lockUntil := some 100 } rfl (by decide)

/-! ## Lemmas about the Map model -/

theorem memGet_memSet_self (m : List (String × MemEntry)) (k : String) (e : MemEntry) :
    memGet (memSet m k e) k = some e := by
  induction m with
  | nil => simp [memSet, memGet]
  | cons p rest ih =>
    by_cases h : p.1 = k <;> simp [memSet, memGet, h, ih]

theorem memGet_memDelete_self (m : List (String × MemEntry)) (k : String) :
    memGet (memDelete m k) k = none := by
  induction m with
  | nil => simp [memDelete, memGet]
  | cons p rest ih =>
    by_cases h : p.1 = k <;> simp [memDelete, memGet, h, ih]

theorem mem_memSet (m : List (String × MemEntry)) (k : String) (e : MemEntry)
    (p : String × MemEntry) (hp : p ∈ memSet m k e) : p = (k, e) ∨ p ∈ m := by
  induction m with
  | nil => simpa [memSet] using hp
  | cons q rest ih =>
    by_cases h : q.1 = k
    · simp [memSet, h] at hp
      rcases hp with hp | hp
      · exact Or.inl (by simp [hp])
      · exact Or.inr (by simp [hp])
    · simp [memSet, h] at hp
      rcases hp with hp | hp
      · exact Or.inr (by simp [hp])
      · rcases ih hp with h1 | h1
        · exact Or.inl h1
        · exact Or.inr (by simp [h1])

theorem memSet_length_of_fresh (m : List (String × MemEntry)) (k : String) (e : MemEntry)
    (hk : ∀ p ∈ m, p.1 ≠ k) : (memSet m k e).length = m.length + 1 := by
  induction m with
  | nil => simp [memSet]
  | cons q rest ih =>
    have hq : q.1 ≠ k := hk q (by simp)
    have hrest : ∀ p ∈ rest, p.1 ≠ k := fun p hp => hk p (by simp [hp])
    simp [memSet, hq, ih hrest]

theorem memoryLookup_fst (now : Nat) (key : String) (s t : SrvState)
    (h : s.memoryCache = t.memoryCache) :
    (memoryLookup now s key).1 = (memoryLookup now t key).1 := by
  unfold memoryLookup
  rw [h]
  cases memGet t.memoryCache key with
  | none => rfl
  | some e => by_cases hlt : now < e.expires <;> simp [hlt]

theorem memoryLookup_redis (now : Nat) (key : String) (s : SrvState) :
    (memoryLookup now s key).2.redisAvailable = s.redisAvailable := by
  unfold memoryLookup
  cases memGet s.memoryCache key with
  | none => rfl
  | some e => by_cases hlt : now < e.expires <;> simp [hlt]

/-! ## Claims about the tiered cache -/

/-- C2, as stated by the spec, is false on the code: after the first
distributed failure the client is nulled, and there exists no later time at
which a cache read attempts the distributed backend again — there is no
cooldown after which it is re-attempted. -/
theorem C2_counterexample :
    afterFirstFailure.redisAvailable = false ∧
    ¬ ∃ t, distAttemptedAt t = true := by
  refine ⟨rfl, ?_⟩
  rintro ⟨t, h⟩
  simp [distAttemptedAt, afterFirstFailure, cacheGet, memoryLookup, memGet] at h

/-- C2 amended: once the distributed client is gone (`redisAvailable =
false`, which a single failure causes), every subsequent cache get or put
routes directly to the local store without attempting the distributed
backend, and the client stays gone — it is never re-attempted for the life
of the process (there is no failure threshold or cooldown in the code). -/
theorem C2_failure_routes_local (now : Nat) (dist : DistResult) (s : SrvState)
    (key body : String) (dur : Nat) (h : s.redisAvailable = false) :
    ((cacheGet now dist s key).2.2 = false ∧
     (cacheGet now dist s key).2.1.redisAvailable = false) ∧
    ((cachePut now dist s key body dur).2 = false ∧
     (cachePut now dist s key body dur).1.redisAvailable = false) ∧
    (cacheGet now .err { s with redisAvailable := true } key).2.1.redisAvailable = false := by
  refine ⟨⟨?_, ?_⟩, ⟨?_, ?_⟩, ?_⟩
  · simp [cacheGet, h]
  · simp [cacheGet, h]
    rw [memoryLookup_redis]
    exact h
  · simp [cachePut, h]
  · simp [cachePut, h]
  · simp [cacheGet]
    rw [memoryLookup_redis]

/-- Witness for C2_failure_routes_local at the development start state. -/
theorem C2_failure_routes_local_witness :
    ((cacheGet 7 (.ok (some "w")) devStart "k").2.2 = false ∧
     (cacheGet 7 (.ok (some "w")) devStart "k").2.1.redisAvailable = false) ∧
    ((cachePut 7 (.ok (some "w")) devStart "k" "v" 300).2 = false ∧
     (cachePut 7 (.ok (some "w")) devStart "k" "v" 300).1.redisAvailable = false) ∧
    (cacheGet 7 .err { devStart with redisAvailable := true } "k").2.1.redisAvailable = false :=
  C2_failure_routes_local 7 (.ok (some "w")) devStart "k" "v" 300 rfl

/-- C3: with the distributed client absent (the in-process store is where
the repository owns TTL semantics), after `put(K,V,ttl)` at time `now` the
entry's `expiresAt` is `now + ttl * 1000`, a get at any `t < expiresAt`
returns V, and a get at any `t ≥ expiresAt` returns Miss. -/
theorem C3_ttl_semantics (now t ttl : Nat) (distP distG : DistResult) (s : SrvState)
    (key V : String) (hr : s.redisAvailable = false) (httl : 0 < ttl) :
    (t < now + ttl * 1000 →
      (cacheGet t distG (cachePut now distP s key V ttl).1 key).1 = .hit V) ∧
    (now + ttl * 1000 ≤ t →
      (cacheGet t distG (cachePut now distP s key V ttl).1 key).1 = .miss) := by
  have hput : (cachePut now distP s key V ttl).1
      = { s with memoryCache := memSet s.memoryCache key ⟨V, now + ttl * 1000⟩ } := by
    simp [cachePut, hr]
  constructor
  · intro hlt
    simp [hput, cacheGet, hr, memoryLookup, memGet_memSet_self, hlt]
  · intro hge
    have : ¬ t < now + ttl * 1000 := by omega
    simp [hput, cacheGet, hr, memoryLookup, memGet_memSet_self, this]

/-- Witness for C3_ttl_semantics: `put` at time 0 with ttl 300, read back
at `t = 5` (hit) and at `t = 300000` (miss). -/
theorem C3_ttl_semantics_witness :
    (cacheGet 5 (.ok none) (cachePut 0 (.ok none) devStart "k" "v" 300).1 "k").1
      = .hit "v" ∧
    (cacheGet 300000 (.ok none) (cachePut 0 (.ok none) devStart "k" "v" 300).1 "k").1
      = .miss :=
  ⟨(C3_ttl_semantics 0 5 300 (.ok none) (.ok none) devStart "k" "v" rfl (by decide)).1
      (by decide),
   (C3_ttl_semantics 0 300000 300 (.ok none) (.ok none) devStart "k" "v" rfl (by decide)).2
      (by decide)⟩

/-- C10: with the distributed client absent, a get of a key whose local
entry has expired (`e.expires ≤ now`) returns Miss and deletes the entry:
the store afterwards holds no entry for that key. -/
theorem C10_purge_on_read (now : Nat) (dist : DistResult) (s : SrvState)
    (key : String) (e : MemEntry) (hr : s.redisAvailable = false)
    (hm : memGet s.memoryCache key = some e) (he : e.expires ≤ now) :
    (cacheGet now dist s key).1 = .miss ∧
    memGet (cacheGet now dist s key).2.1.memoryCache key = none := by
  have hlt : ¬ now < e.expires := by omega
  constructor
  · simp [cacheGet, hr, memoryLookup, hm, hlt]
  · simp [cacheGet, hr, memoryLookup, hm, hlt, memGet_memDelete_self]

/-- Witness for C10_purge_on_read: a single expired entry under "k",
read at `now = 10`. -/
theorem C10_purge_on_read_witness :
    (cacheGet 10 (.ok none) ⟨false, [("k", ⟨"v", 10⟩)]⟩ "k").1 = .miss ∧
    memGet (cacheGet 10 (.ok none) ⟨false, [("k", ⟨"v", 10⟩)]⟩ "k").2.1.memoryCache "k"
      = none :=
  C10_purge_on_read 10 (.ok none) ⟨false, [("k", ⟨"v", 10⟩)]⟩ "k" ⟨"v", 10⟩ rfl rfl
    (by decide)

/-- C8: storage-backend errors never surface: for every request through the
cache middleware the caller receives a served response, and the response
when both backend calls fail is identical to the response when the backend
is healthy but holds no value (same shape, same body). -/
theorem C8_errors_absorbed (now : Nat) (distG distP : DistResult) (s : SrvState)
    (key body : String) (dur : Nat) :
    (∃ b, (handleRequest now distG distP s key body dur).1 = .served b) ∧
    (handleRequest now .err .err s key body dur).1
      = (handleRequest now (.ok none) (.ok none) s key body dur).1 := by
  constructor
  · rcases h : cacheGet now distG s key with ⟨o, s1, b⟩
    cases o with
    | hit v => exact ⟨v, by simp [handleRequest, h]⟩
    | miss => exact ⟨body, by simp [handleRequest, h]⟩
  · by_cases hr : s.redisAvailable
    · rcases h1 : memoryLookup now { s with redisAvailable := false } key with ⟨o1, u1⟩
      rcases h2 : memoryLookup now s key with ⟨o2, u2⟩
      have ho : o1 = o2 := by
        have hfst := memoryLookup_fst now key { s with redisAvailable := false } s rfl
        rw [h1, h2] at hfst
        exact hfst
      subst ho
      cases o1 <;> simp [handleRequest, cacheGet, hr, h1, h2]
    · have hr' : s.redisAvailable = false := by simpa using hr
      rcases h2 : memoryLookup now s key with ⟨o2, u2⟩
      cases o2 <;> simp [handleRequest, cacheGet, hr', h2]

/-! ## Claims about the gate composition and the throttle -/

/-- C7: a key present and unexpired in the cache is answered from the cache
on every read: for any list of read times all before the entry's expiry,
every response is the cached body, the wrapped handler is never invoked,
and the throttle state (the client's rate budget) is untouched. -/
theorem C7_cached_reads_free (limit windowSize : Nat) (ts : List Nat)
    (s : SrvState) (w : Option ThrottleWindow) (key body : String) (dur : Nat)
    (e : MemEntry) (hr : s.redisAvailable = false)
    (hm : memGet s.memoryCache key = some e) (hts : ∀ t ∈ ts, t < e.expires) :
    gateReads limit windowSize ts s w key body dur
      = (ts.map (fun _ => Response.served e.data), s, w, false) := by
  induction ts with
  | nil => simp [gateReads]
  | cons t rest ih =>
    have ht : t < e.expires := hts t (by simp)
    have hrest : ∀ x ∈ rest, x < e.expires := fun x hx => hts x (by simp [hx])
    simp [gateReads, gateRequest, cacheGet, hr, memoryLookup, hm, ht, ih hrest]

/-- Witness for C7_cached_reads_free: seven reads (more than the strict
limit of five) of a cached key, none of which consumes throttle budget or
reaches the handler. -/
theorem C7_cached_reads_free_witness :
    gateReads 5 60 [1, 2, 3, 4, 5, 6, 7] ⟨false, [("k", ⟨"v", 100⟩)]⟩ none "k" "b" 300
      = ([1, 2, 3, 4, 5, 6, 7].map (fun _ => Response.served "v"),
         ⟨false, [("k", ⟨"v", 100⟩)]⟩, none, false) :=
  C7_cached_reads_free 5 60 [1, 2, 3, 4, 5, 6, 7] ⟨false, [("k", ⟨"v", 100⟩)]⟩ none
    "k" "b" 300 ⟨"v", 100⟩ rfl rfl (by decide)

/-- C9: for the spec's fixed-window throttle with `limit = 5` and
`windowSize = 60`, a fresh client checked at monotone times
`t0 ≤ … ≤ t5 < t0 + 60` is Allowed exactly on the first five checks; the
sixth is Denied with `retryAfter = windowStart + windowSize - now =
t0 + 60 - t5`; and a check at `t6 ≥ t0 + 60` is Allowed again with the
window reset (`windowStart = t6`, count restarted at 1). -/
theorem C9_throttle_boundary (t0 t1 t2 t3 t4 t5 t6 : Nat)
    (h1 : t0 ≤ t1) (h2 : t1 ≤ t2) (h3 : t2 ≤ t3) (h4 : t3 ≤ t4) (h5 : t4 ≤ t5)
    (hw : t5 < t0 + 60) (h6 : t0 + 60 ≤ t6) :
    allow 5 60 t0 none = (.allowed, ⟨t0, 1⟩) ∧
    allow 5 60 t1 (some ⟨t0, 1⟩) = (.allowed, ⟨t0, 2⟩) ∧
    allow 5 60 t2 (some ⟨t0, 2⟩) = (.allowed, ⟨t0, 3⟩) ∧
    allow 5 60 t3 (some ⟨t0, 3⟩) = (.allowed, ⟨t0, 4⟩) ∧
    allow 5 60 t4 (some ⟨t0, 4⟩) = (.allowed, ⟨t0, 5⟩) ∧
    allow 5 60 t5 (some ⟨t0, 5⟩) = (.denied (t0 + 60 - t5), ⟨t0, 6⟩) ∧
    allow 5 60 t6 (some ⟨t0, 6⟩) = (.allowed, ⟨t6, 1⟩) := by
  have c1 : ¬ 60 ≤ t1 - t0 := by omega
  have c2 : ¬ 60 ≤ t2 - t0 := by omega
  have c3 : ¬ 60 ≤ t3 - t0 := by omega
  have c4 : ¬ 60 ≤ t4 - t0 := by omega
  have c5 : ¬ 60 ≤ t5 - t0 := by omega
  have c6 : 60 ≤ t6 - t0 := by omega
  refine ⟨?_, ?_, ?_, ?_, ?_, ?_, ?_⟩
  · simp [allow]
  · simp [allow, c1]
  · simp [allow, c2]
  · simp [allow, c3]
  · simp [allow, c4]
  · simp [allow, c5]
  · simp [allow, c6]

/-- Witness for C9_throttle_boundary at `t0..t5 = 0, 10, 20, 30, 40, 50`
and `t6 = 60`. -/
theorem C9_throttle_boundary_witness :
    allow 5 60 0 none = (.allowed, ⟨0, 1⟩) ∧
    allow 5 60 10 (some ⟨0, 1⟩) = (.allowed, ⟨0, 2⟩) ∧
    allow 5 60 20 (some ⟨0, 2⟩) = (.allowed, ⟨0, 3⟩) ∧
    allow 5 60 30 (some ⟨0, 3⟩) = (.allowed, ⟨0, 4⟩) ∧
    allow 5 60 40 (some ⟨0, 4⟩) = (.allowed, ⟨0, 5⟩) ∧
    allow 5 60 50 (some ⟨0, 5⟩) = (.denied (0 + 60 - 50), ⟨0, 6⟩) ∧
    allow 5 60 60 (some ⟨0, 6⟩) = (.allowed, ⟨60, 1⟩) :=
  C9_throttle_boundary 0 10 20 30 40 50 60 (by decide) (by decide) (by decide)
    (by decide) (by decide) (by decide) (by decide)

/-! ## Claims about the size of the local store -/

theorem keyOfNat_length (n : Nat) : (keyOfNat n).length = n := by
  simp [keyOfNat, String.length]

theorem putN_redis (n : Nat) : (putN n).redisAvailable = false := by
  induction n with
  | zero => rfl
  | succ n ih => simp [putN, cachePut, ih]

theorem putN_keys_lt (n : Nat) :
    ∀ p ∈ (putN n).memoryCache, p.1.length < n := by
  induction n with
  | zero => simp [putN, devStart]
  | succ n ih =>
    intro p hp
    have hmem : (putN (n + 1)).memoryCache
        = memSet (putN n).memoryCache (keyOfNat n) ⟨"v", 0 + 300 * 1000⟩ := by
      simp [putN, cachePut, putN_redis]
    rw [hmem] at hp
    rcases mem_memSet _ _ _ p hp with h | h
    · simp [h, keyOfNat_length]
    · exact Nat.lt_succ_of_lt (ih p h)

theorem putN_length (n : Nat) : (putN n).memoryCache.length = n := by
  induction n with
  | zero => rfl
  | succ n ih =>
    have hmem : (putN (n + 1)).memoryCache
        = memSet (putN n).memoryCache (keyOfNat n) ⟨"v", 0 + 300 * 1000⟩ := by
      simp [putN, cachePut, putN_redis]
    have hfresh : ∀ p ∈ (putN n).memoryCache, p.1 ≠ keyOfNat n := by
      intro p hp heq
      have := putN_keys_lt n p hp
      rw [heq, keyOfNat_length] at this
      omega
    rw [hmem, memSet_length_of_fresh _ _ _ hfresh, ih]

/-- C6, as stated by the spec, is false on the code: the in-process
`memoryCache` Map has no size bound — no constant bounds the number of
entries over all executions, since caching `n` responses under `n` distinct
keys leaves exactly `n` entries in the store. -/
theorem C6_counterexample :
    ¬ ∃ B, ∀ n, (putN n).memoryCache.length ≤ B := by
  rintro ⟨B, h⟩
  have := h (B + 1)
  rw [putN_length] at this
  omega

/-- C6 amended: the local fallback store is an unbounded map — after
caching responses under `n` distinct keys it holds exactly `n` entries, for
every `n`; entries carry expiry timestamps but are evicted only lazily,
when their own key is next read. -/
theorem C6_store_growth (n : Nat) : (putN n).memoryCache.length = n :=
  putN_length n

end LifeOS
